import Mathlib

/-!
Verification of the prompt-segmentation core of the ai_virtual_try_on
repository.

The repository ships two variants of the segmenter `parseMultiplePrompts`
together with its helper `createPromptVariation`:

* `src/unnamed/part_000`, lines 476-637: the variant with a seen-set for
  duplicate detection, an extra "### Prompt N:" section-split stage, a
  10-entry synthetic template pool, and an early break in the padding loop.
* `src/server.js`, lines 379-478: the variant with no duplicate detection,
  no section-split stage, a 4-entry pool, and an unconditional padding loop.

Strings are embedded as `List Char` (JavaScript string indices are UTF-16
code units; for the ASCII texts handled here the two coincide).  Each
JavaScript regular-expression operation used by the source is embedded as a
recursive function whose behaviour follows the backtracking semantics of the
concrete regex it models; every such function carries a comment naming the
regex and the source lines.
-/

set_option maxRecDepth 8000

/-- Strings of the embedded program: lists of characters. -/
abbrev Str := List Char

/-- The character class of JavaScript `\s` (which for `trim`, `\s` and
`split` is the WhiteSpace and LineTerminator production): space, tab, LF,
VT, FF, CR, NBSP, Ogham space, the U+2000 - U+200A range, LS, PS, NNBSP,
MMSP, ideographic space and the BOM. -/
def isJsWs (c : Char) : Bool :=
  let n := c.toNat
  n == 32 || n == 9 || n == 10 || n == 11 || n == 12 || n == 13 ||
  n == 0xA0 || n == 0x1680 || (0x2000 ≤ n && n ≤ 0x200A) ||
  n == 0x2028 || n == 0x2029 || n == 0x202F || n == 0x205F ||
  n == 0x3000 || n == 0xFEFF

/-- JavaScript `String.prototype.trim`: drop leading and trailing
whitespace. -/
def jsTrim (cs : Str) : Str :=
  ((cs.dropWhile isJsWs).reverse.dropWhile isJsWs).reverse

/-- Scanner for `replace(/\s+/g, ' ')`: the flag records whether the
previous character was part of a whitespace run already replaced. -/
def collapseWsGo : Bool → Str → Str
  | _, [] => []
  | prev, c :: rest =>
    if isJsWs c then
      if prev then collapseWsGo true rest else ' ' :: collapseWsGo true rest
    else c :: collapseWsGo false rest

/-- JavaScript `replace(/\s+/g, ' ')`: every maximal whitespace run becomes
one space. -/
def collapseWs (cs : Str) : Str := collapseWsGo false cs

/-- The normalized form used for duplicate detection
(`prompt.toLowerCase().replace(/\s+/g, ' ').trim()`, part_000 lines 499,
522, 545, 566, 588, 604).  `Char.toLower` matches `toLowerCase` on the
ASCII texts involved. -/
def normText (cs : Str) : Str := jsTrim (collapseWs (cs.map Char.toLower))

/-- Split a string at its first `'*'`: `some (before, after)` when a star
exists.  Helper for the lazy group of `/\*(.*?)\*/g`: the lazy `(.*?)`
stops at the first closing star. -/
def splitAtStar : Str → Option (Str × Str)
  | [] => none
  | c :: rest =>
    if c = '*' then some ([], rest)
    else (splitAtStar rest).map fun p => (c :: p.1, p.2)

/-- Split a string at its first adjacent pair `"**"`: `some (before, after)`
when such a pair exists.  Helper for the lazy group of `/\*\*(.*?)\*\*/g`. -/
def splitAtDD : Str → Option (Str × Str)
  | [] => none
  | [_] => none
  | c :: d :: rest =>
    if c = '*' ∧ d = '*' then some ([], rest)
    else (splitAtDD (d :: rest)).map fun p => (c :: p.1, p.2)

theorem splitAtStar_eq : ∀ {cs a b : Str}, splitAtStar cs = some (a, b) →
    cs = a ++ '*' :: b := by
  intro cs
  induction cs with
  | nil => intro a b h; simp [splitAtStar] at h
  | cons c rest ih =>
    intro a b h
    simp only [splitAtStar] at h
    split at h
    · simp at h
      obtain ⟨ha, hb⟩ := h
      subst ha; subst hb; simp_all
    · cases hr : splitAtStar rest with
      | none => rw [hr] at h; simp at h
      | some p =>
        rw [hr] at h
        simp at h
        obtain ⟨ha, hb⟩ := h
        subst ha; subst hb
        simp [ih hr]

theorem splitAtStar_no_star : ∀ {cs a b : Str}, splitAtStar cs = some (a, b) →
    '*' ∉ a := by
  intro cs
  induction cs with
  | nil => intro a b h; simp [splitAtStar] at h
  | cons c rest ih =>
    intro a b h
    simp only [splitAtStar] at h
    split at h
    · simp at h
      obtain ⟨ha, _⟩ := h
      subst ha; simp
    · cases hr : splitAtStar rest with
      | none => rw [hr] at h; simp at h
      | some p =>
        rw [hr] at h
        simp at h
        obtain ⟨ha, _⟩ := h
        subst ha
        intro hmem
        rcases List.mem_cons.mp hmem with h1 | h2
        · rename_i hc _; exact hc h1.symm
        · exact ih hr h2

theorem splitAtStar_none_no_star : ∀ {cs : Str}, splitAtStar cs = none →
    '*' ∉ cs := by
  intro cs
  induction cs with
  | nil => intro _ h; simp at h
  | cons c rest ih =>
    intro h
    simp only [splitAtStar] at h
    split at h
    · simp at h
    · cases hr : splitAtStar rest with
      | none =>
        intro hmem
        rcases List.mem_cons.mp hmem with h1 | h2
        · rename_i hc; exact hc h1.symm
        · exact ih hr h2
      | some p => rw [hr] at h; simp at h

theorem splitAtDD_eq : ∀ {cs a b : Str}, splitAtDD cs = some (a, b) →
    cs = a ++ '*' :: '*' :: b := by
  intro cs
  induction cs with
  | nil => intro a b h; simp [splitAtDD] at h
  | cons c rest ih =>
    intro a b h
    cases rest with
    | nil => simp [splitAtDD] at h
    | cons d rest2 =>
      simp only [splitAtDD] at h
      split at h
      · simp at h
        obtain ⟨ha, hb⟩ := h
        subst ha; subst hb
        rename_i hcd
        obtain ⟨hc, hd⟩ := hcd
        subst hc; subst hd; rfl
      · cases hr : splitAtDD (d :: rest2) with
        | none => rw [hr] at h; simp at h
        | some p =>
          rw [hr] at h
          simp at h
          obtain ⟨ha, hb⟩ := h
          subst ha; subst hb
          simp [ih hr]

/-- The ECMAScript LineTerminator class, which `.` (without the `s` flag,
as in the source's emphasis regexes) does not match: LF, CR, LS, PS. -/
def isLineTerm (c : Char) : Bool :=
  c == '\n' || c == '\r' || c.toNat == 0x2028 || c.toNat == 0x2029

/-- Fuel-indexed scanner of `replace(/\*(.*?)\*/g, '$1')`.  Every step
consumes at least one input character, so any fuel above the input length
is exact; out of fuel the rest is returned unchanged (unreachable from the
wrapper).  At an opening star the lazy `(.*?)` extends to the next star,
but `.` cannot cross a line terminator: if one occurs before that star the
match attempt fails and the engine advances one character.  When no star
follows at all, no later match can start, so the remainder is emitted
unchanged. -/
def sstripF : Nat → Str → Str
  | 0, cs => cs
  | _ + 1, [] => []
  | fuel + 1, c :: rest =>
    if c = '*' then
      match splitAtStar rest with
      | some p =>
        if p.1.any isLineTerm then c :: sstripF fuel rest
        else p.1 ++ sstripF fuel p.2
      | none => c :: rest
    else c :: sstripF fuel rest

/-- `replace(/\*(.*?)\*/g, '$1')` (part_000 lines 496, 519, 542, 562, 585;
server.js lines 398, 428, 447). -/
def sstrip (cs : Str) : Str := sstripF (cs.length + 1) cs

/-- Fuel-indexed scanner of `replace(/\*\*(.*?)\*\*/g, '$1')`: an opening
`"**"` matches up to the first adjacent star pair, provided no line
terminator intervenes (the regex has no `s` flag); otherwise the engine
advances one character.  When the tail holds no adjacent star pair at all,
no later match exists and the remainder is emitted unchanged. -/
def dstripF : Nat → Str → Str
  | 0, cs => cs
  | _ + 1, [] => []
  | _ + 1, [c] => [c]
  | fuel + 1, c :: d :: rest =>
    if c = '*' ∧ d = '*' then
      match splitAtDD rest with
      | some p =>
        if p.1.any isLineTerm then c :: dstripF fuel (d :: rest)
        else p.1 ++ dstripF fuel p.2
      | none => c :: d :: rest
    else c :: dstripF fuel (d :: rest)

/-- `replace(/\*\*(.*?)\*\*/g, '$1')` (part_000 lines 495, 518, 541, 561,
584; server.js lines 397, 427, 446). -/
def dstrip (cs : Str) : Str := dstripF (cs.length + 1) cs

/-- Case-insensitive character comparison, the `i` flag of the source's
regexes (ASCII case folding, which is what the literals involved need). -/
def lowEq (a b : Char) : Bool := a.toLower == b.toLower

/-- Match a literal (case-insensitively) at the head of the input and
return the remainder. -/
def litAt : Str → Str → Option Str
  | [], cs => some cs
  | _ :: _, [] => none
  | l :: ls, c :: cs => if lowEq l c then litAt ls cs else none

/-- Greedy `\s*`.  Deterministic here because in every use the following
regex atom starts with a non-whitespace character. -/
def wsSkip (cs : Str) : Str := cs.dropWhile isJsWs

/-- Greedy `\d*` (and the `\d+` of the enumerator lookahead).  Deterministic
because the following atom is `:` or `.`, never a digit. -/
def digSkip (cs : Str) : Str := cs.dropWhile Char.isDigit

/-- Require a literal `':'` and return the remainder. -/
def colonAfter : Str → Option Str
  | c :: rest => if c = ':' then some rest else none
  | [] => none

/-- The alternative `###\s*Prompt\s*\d*:` of the header regexes
(part_000 lines 484, 492, 511, 560; server.js lines 386, 394, 426). -/
def matchHdrA (cs : Str) : Option Str :=
  (litAt "###".data cs).bind fun r1 =>
  (litAt "prompt".data (wsSkip r1)).bind fun r2 =>
  colonAfter (digSkip (wsSkip r2))

/-- The alternative `Prompt\s*\d*:` of the header regexes. -/
def matchHdrB (cs : Str) : Option Str :=
  (litAt "prompt".data cs).bind fun r =>
  colonAfter (digSkip (wsSkip r))

/-- The alternative `Image\s*\d*:` of the header regexes. -/
def matchHdrC (cs : Str) : Option Str :=
  (litAt "image".data cs).bind fun r =>
  colonAfter (digSkip (wsSkip r))

/-- The literal part `Prompt\s*for\s*AI\s*Image\s*Editing` of the fourth
header alternative. -/
def matchHdrD (cs : Str) : Option Str :=
  (litAt "prompt".data cs).bind fun r1 =>
  (litAt "for".data (wsSkip r1)).bind fun r2 =>
  (litAt "ai".data (wsSkip r2)).bind fun r3 =>
  (litAt "image".data (wsSkip r3)).bind fun r4 =>
  litAt "editing".data (wsSkip r4)

/-- `replace(/^(?:###\s*Prompt\s*\d*:|Prompt\s*\d*:|Image\s*\d*:|Prompt\s*for\s*AI\s*Image\s*Editing[^]*?)/gi, '')`
(part_000 lines 492, 560; server.js lines 394, 426).  The `^` anchor with no
`m` flag matches only at position 0, so despite the `g` flag at most one
leading header is removed; in the fourth alternative the trailing lazy
`[^]*?` matches the empty string because nothing follows it. -/
def stripHdrOnce (cs : Str) : Str :=
  match matchHdrA cs with
  | some r => r
  | none =>
    match matchHdrB cs with
    | some r => r
    | none =>
      match matchHdrC cs with
      | some r => r
      | none =>
        match matchHdrD cs with
        | some r => r
        | none => cs

/-- The lookahead
`(?=###\s*Prompt\s*\d*:|Prompt\s*\d*:|Image\s*\d*:|Prompt\s*for\s*AI\s*Image\s*Editing|$)`
of the structured-prompt regex (part_000 line 484; server.js line 386). -/
def lookHdr (cs : Str) : Bool :=
  cs.isEmpty || (matchHdrA cs).isSome || (matchHdrB cs).isSome ||
  (matchHdrC cs).isSome || (matchHdrD cs).isSome

/-- The lazy `[^]*?` of the fourth alternative: the smallest number of
characters to skip until the lookahead holds.  Always defined because the
lookahead holds at the end of the input. -/
def lazyLen (cs : Str) : Nat :=
  if lookHdr cs then 0
  else
    match cs with
    | [] => 0
    | _ :: rest => 1 + lazyLen rest

/-- One attempted match of the structured-prompt regex at the current
position: `some n` consumes `n` characters.  The alternatives are tried in
the regex's order; an alternative whose lookahead fails backtracks to the
next alternative. -/
def matchStructAt (cs : Str) : Option Nat :=
  let withLook : Option Str → Option Nat := fun o =>
    match o with
    | some r => if lookHdr r then some (cs.length - r.length) else none
    | none => none
  (withLook (matchHdrA cs)).orElse fun _ =>
  (withLook (matchHdrB cs)).orElse fun _ =>
  (withLook (matchHdrC cs)).orElse fun _ =>
  match matchHdrD cs with
  | some r => some (cs.length - r.length + lazyLen r)
  | none => none

/-- Global scan of `String.prototype.match` with the `g` flag: collect
non-overlapping matches left to right, advancing one character where no
match starts.  Every successful match consumes at least one character, so
`length + 1` fuel is enough. -/
def scanStruct : Nat → Str → List Str
  | 0, _ => []
  | _, [] => []
  | fuel + 1, c :: rest =>
    match matchStructAt (c :: rest) with
    | some n => (c :: rest).take n :: scanStruct fuel ((c :: rest).drop n)
    | none => scanStruct fuel rest

/-- `promptText.match(/(?:###\s*Prompt\s*\d*:|Prompt\s*\d*:|Image\s*\d*:|Prompt\s*for\s*AI\s*Image\s*Editing[^]*?)(?=###\s*Prompt\s*\d*:|Prompt\s*\d*:|Image\s*\d*:|Prompt\s*for\s*AI\s*Image\s*Editing|$)/gi)`
(part_000 line 484; server.js line 386).  A null result and an empty match
list drive the source's stage-1 loop identically, so both embed as `[]`. -/
def jsMatchStructured (cs : Str) : List Str := scanStruct (cs.length + 1) cs

/-- Splitter for `promptText.split(/###\s*Prompt\s*\d*:/i)` (part_000 line
511): cut at every occurrence of the separator; `acc` is the reversed
current segment.  The separator consumes at least four characters, so
`length + 1` fuel is enough. -/
def scanSecs : Nat → Str → Str → List Str
  | 0, acc, cs => [acc.reverse ++ cs]
  | _, acc, [] => [acc.reverse]
  | fuel + 1, acc, c :: rest =>
    match matchHdrA (c :: rest) with
    | some r => acc.reverse :: scanSecs fuel [] r
    | none => scanSecs fuel (c :: acc) rest

/-- `promptText.split(/###\s*Prompt\s*\d*:/i)` (part_000 line 511). -/
def splitSections (cs : Str) : List Str := scanSecs (cs.length + 1) [] cs

/-- The zero-width lookahead `(?=\d+\.\s)` of the enumerator split:
one or more digits, a period, one whitespace character. -/
def numLook (cs : Str) : Bool :=
  match cs.span Char.isDigit with
  | (ds, c :: w :: _) => !ds.isEmpty && c == '.' && isJsWs w
  | _ => false

/-- Splitter for `promptText.split(/(?=\d+\.\s)/)` (part_000 line 534;
server.js line 409): a zero-width separator match at a position after the
segment start cuts the string there; the match at position 0 (where the
ECMAScript split algorithm has `e = p`) does not cut. -/
def numSplitGo : Str → Str → List Str
  | acc, [] => [acc.reverse]
  | acc, c :: rest =>
    if !acc.isEmpty && numLook (c :: rest) then
      acc.reverse :: numSplitGo [c] rest
    else numSplitGo (c :: acc) rest

/-- `promptText.split(/(?=\d+\.\s)/)` (part_000 line 534; server.js line
409). -/
def numberedSplit (cs : Str) : List Str := numSplitGo [] cs

/-- Index of the last `'\n'` of a list, if any. -/
def lastNl : Str → Option Nat
  | [] => none
  | c :: rest =>
    match lastNl rest with
    | some k => some (k + 1)
    | none => if c = '\n' then some 0 else none

/-- One attempted match of `/\n\s*\n/` at the current position: a newline,
then (greedy `\s*` with backtracking) whitespace up to the last newline
inside the maximal whitespace run, then that closing newline.  Returns the
remainder after the match. -/
def matchParaAt : Str → Option Str
  | c :: rest =>
    if c = '\n' then
      match lastNl (rest.takeWhile isJsWs) with
      | some k => some (rest.drop (k + 1))
      | none => none
    else none
  | [] => none

/-- Splitter for `promptText.split(/\n\s*\n/)` (part_000 line 578;
server.js line 440).  The separator consumes at least two characters, so
`length + 1` fuel is enough. -/
def scanParas : Nat → Str → Str → List Str
  | 0, acc, cs => [acc.reverse ++ cs]
  | _, acc, [] => [acc.reverse]
  | fuel + 1, acc, c :: rest =>
    match matchParaAt (c :: rest) with
    | some r => acc.reverse :: scanParas fuel [] r
    | none => scanParas fuel (c :: acc) rest

/-- `promptText.split(/\n\s*\n/)` (part_000 line 578; server.js line 440). -/
def paraSplit (cs : Str) : List Str := scanParas (cs.length + 1) [] cs

/-- Template 0 of `createPromptVariation`, split at its `${index}`
interpolation (part_000 line 624; server.js line 471). -/
def tpl0 : String × String :=
  ("ARTISTIC VARIATION ", ": Replace the person's current clothing with the uploaded clothing items, maintaining their face and body unchanged. Apply dramatic artistic lighting with creative shadows and rim lighting effects. Position the person in a dynamic pose with emotional expression against an artistic background with depth and texture. Use advanced composition techniques including rule of thirds and creative depth of field for maximum visual impact.")

/-- Template 1 (part_000 line 625; server.js line 472). -/
def tpl1 : String × String :=
  ("CREATIVE MASTERPIECE ", ": Remove the person's current clothing and dress them in the uploaded clothing items, keeping their face and body appearance the same. Create a visually stunning composition with artistic lighting, creative pose variations, and dramatic background elements. Apply mood and atmosphere through sophisticated color grading and artistic ambiance for a truly artistic result.")

/-- Template 2 (part_000 line 626; server.js line 473). -/
def tpl2 : String × String :=
  ("VISUAL ARTWORK ", ": Transform the person's clothing to the uploaded items while preserving their facial features and body structure. Craft an artistic visual experience with creative lighting setups, dynamic pose expressions, and artistic background transformations. Incorporate advanced photography techniques including selective focus, artistic bokeh, and creative composition for a masterpiece result.")

/-- Template 3 (part_000 line 627; server.js line 474). -/
def tpl3 : String × String :=
  ("ARTISTIC ENHANCEMENT ", ": Replace the person's current clothing with the uploaded clothing items, maintaining their face and body unchanged. Create an artistic visual narrative with dramatic lighting, creative shadow play, and sophisticated composition. Apply color theory principles and artistic depth of field effects for a creatively enhanced, visually stunning image.")

/-- Template 4 (part_000 line 628). -/
def tpl4 : String × String :=
  ("CINEMATIC TRANSFORMATION ", ": Replace the person's current clothing with the uploaded clothing items while preserving their face and body exactly. Create a cinematic masterpiece with dramatic film lighting, atmospheric effects, and storytelling composition. Use advanced cinematography techniques including depth of field, creative framing, and mood lighting for a movie-quality result.")

/-- Template 5 (part_000 line 629). -/
def tpl5 : String × String :=
  ("FASHION EDITORIAL ", ": Transform the person's clothing to the uploaded items, keeping their face and body unchanged. Create a high-fashion editorial scene with dramatic studio lighting, artistic poses, and sophisticated composition. Apply fashion photography techniques including creative lighting, artistic shadows, and professional styling for a magazine-quality result.")

/-- Template 6 (part_000 line 630). -/
def tpl6 : String × String :=
  ("STREET ART MASTERPIECE ", ": Replace the person's current clothing with the uploaded clothing items while maintaining their face and body. Create a vibrant street photography scene with urban graffiti backgrounds, dynamic poses, and authentic street aesthetics. Use creative urban lighting, candid photography techniques, and artistic street elements for a dynamic result.")

/-- Template 7 (part_000 line 631). -/
def tpl7 : String × String :=
  ("VINTAGE GLAMOUR ", ": Transform the person's clothing to the uploaded items, preserving their face and body exactly. Create a nostalgic vintage scene with period-appropriate styling, artistic film grain effects, and classic photography techniques. Apply vintage color grading, retro aesthetics, and timeless composition for a nostalgic masterpiece.")

/-- Template 8 (part_000 line 632). -/
def tpl8 : String × String :=
  ("MINIMALIST ELEGANCE ", ": Replace the person's current clothing with the uploaded clothing items while keeping their face and body unchanged. Create a clean, minimalist composition with sophisticated negative space, artistic simplicity, and maximum visual impact. Use creative minimalism, elegant lighting, and sophisticated composition for a refined result.")

/-- Template 9 (part_000 line 633). -/
def tpl9 : String × String :=
  ("PROFESSIONAL SOPHISTICATION ", ": Transform the person's clothing to the uploaded items, maintaining their face and body exactly. Create a professional corporate scene with sophisticated business aesthetics, polished lighting, and executive photography techniques. Apply corporate styling, professional composition, and refined business aesthetics for a polished result.")

/-- The `creativeVariations` array of part_000's `createPromptVariation`
(lines 623-634): ten templates. -/
def pool10 : List (String × String) :=
  [tpl0, tpl1, tpl2, tpl3, tpl4, tpl5, tpl6, tpl7, tpl8, tpl9]

/-- The `creativeVariations` array of server.js's `createPromptVariation`
(lines 470-475): the first four of the same templates. -/
def pool4 : List (String × String) :=
  [tpl0, tpl1, tpl2, tpl3]

/-- part_000's `createPromptVariation(basePrompt, index)` (lines 622-637)
restricted to the natural-number indices the parser passes:
`creativeVariations[index % creativeVariations.length]` with `${index}`
substituted.  `basePrompt` is accepted and ignored, as in the source. -/
def cpv10 (basePrompt : Str) (index : Nat) : Str :=
  let p := pool10.getD (index % 10) ("", "")
  p.1.data ++ (Nat.repr index).data ++ p.2.data

/-- server.js's `createPromptVariation(basePrompt, index)` (lines 469-478)
restricted to natural-number indices. -/
def cpv4 (basePrompt : Str) (index : Nat) : Str :=
  let p := pool4.getD (index % 4) ("", "")
  p.1.data ++ (Nat.repr index).data ++ p.2.data

/-- part_000's `createPromptVariation` over every integer index: JavaScript
`%` truncates towards zero, so a negative index yields a negative remainder,
`creativeVariations[r]` is then `undefined` (embedded as `none`). -/
def cpvZ10 (basePrompt : Str) (index : Int) : Option Str :=
  let r := Int.tmod index 10
  if r < 0 then none
  else
    let p := pool10.getD r.toNat ("", "")
    some (p.1.data ++ (toString index).data ++ p.2.data)

/-- server.js's `createPromptVariation` over every integer index. -/
def cpvZ4 (basePrompt : Str) (index : Int) : Option Str :=
  let r := Int.tmod index 4
  if r < 0 then none
  else
    let p := pool4.getD r.toNat ("", "")
    some (p.1.data ++ (toString index).data ++ p.2.data)

/-- The mutable state of part_000's `parseMultiplePrompts`: the `prompts`
array and the `seenPrompts` set (lines 477-478).  The set is embedded as the
list of normalized forms in insertion order; only membership is used. -/
structure PState where
  prompts : List Str
  seen : List Str

/-- The candidate filter every extraction stage of part_000 applies
(lines 501-503, 524-526, 547-549, 569-571, 590-592): inside a loop that
only runs while `prompts.length < expectedCount`, push a candidate when its
length exceeds 100 and its normalized form is unseen. -/
def pushP (exp : Nat) (st : PState) (c : Str) : PState :=
  if 100 < c.length ∧ st.prompts.length < exp ∧ normText c ∉ st.seen then
    ⟨st.prompts ++ [c], st.seen ++ [normText c]⟩
  else st

/-- The candidate filter of server.js's stages (lines 400-401, 414-415,
432-433, 449-450): as `pushP` but with no duplicate check. -/
def pushS (exp : Nat) (ps : List Str) (c : Str) : List Str :=
  if 100 < c.length ∧ ps.length < exp then ps ++ [c] else ps

/-- The markdown cleanup `replace(/\*\*(.*?)\*\*/g, '$1')` then
`replace(/\*(.*?)\*/g, '$1')` shared by the stages. -/
def cleanMd (cs : Str) : Str := sstrip (dstrip cs)

/-- Stage 1 candidates: each match of the structured-prompt regex is
trimmed, has one leading header stripped, is trimmed again, then has
markdown emphasis collapsed (part_000 lines 489-496; server.js lines
391-398). -/
def stage1Cands (text : Str) : List Str :=
  (jsMatchStructured text).map fun m => cleanMd (jsTrim (stripHdrOnce (jsTrim m)))

/-- Stage 2 candidates (part_000 only, lines 511-519): the `### Prompt N:`
section split, skipping the piece before the first separator, each piece
trimmed and emphasis-collapsed. -/
def stage2Cands (text : Str) : List Str :=
  ((splitSections text).drop 1).map fun s => cleanMd (jsTrim s)

/-- Stage 3 candidates of part_000 (lines 534-542): the enumerator split,
skipping the piece before the first enumerator, each piece trimmed and
emphasis-collapsed.  (When the split produced a single piece the source
skips the stage; dropping that piece yields the same empty list.) -/
def stage3CandsP (text : Str) : List Str :=
  ((numberedSplit text).drop 1).map fun s => cleanMd (jsTrim s)

/-- Stage 3 candidates of server.js (lines 409-413): as `stage3CandsP` but
the source applies no markdown cleanup here, only `trim`. -/
def stage3CandsS (text : Str) : List Str :=
  ((numberedSplit text).drop 1).map jsTrim

/-- Stage 4's single candidate (part_000 lines 559-563; server.js lines
425-429): the whole text with one leading header stripped, emphasis
collapsed, then trimmed. -/
def mainContent (text : Str) : Str := jsTrim (cleanMd (stripHdrOnce text))

/-- Stage 5 candidates (part_000 lines 578-585; server.js lines 440-447):
the blank-line split, every piece (including the one before the first
separator) trimmed and emphasis-collapsed. -/
def stage5Cands (text : Str) : List Str :=
  (paraSplit text).map fun s => cleanMd (jsTrim s)

/-- part_000's synthetic-padding loop (lines 599-615): while the count is
short, synthesize `createPromptVariation(prompts[0] || promptText,
prompts.length + 1)`; a candidate whose normalized form was already seen
breaks the loop, otherwise it is pushed and its normalized form recorded. -/
def padLoop10F : Nat → Nat → Str → PState → PState
  | 0, _, _, st => st
  | fuel + 1, exp, text, st =>
    if st.prompts.length < exp then
      if normText (cpv10 (st.prompts.headD text) (st.prompts.length + 1))
          ∈ st.seen then st
      else padLoop10F fuel exp text
        ⟨st.prompts ++ [cpv10 (st.prompts.headD text) (st.prompts.length + 1)],
         st.seen ++ [normText (cpv10 (st.prompts.headD text)
           (st.prompts.length + 1))]⟩
    else st

/-- Fuel wrapper for part_000's padding loop: every iteration grows
`prompts` by one, so `exp + 1` fuel is exact. -/
def padLoop10 (exp : Nat) (text : Str) (st : PState) : PState :=
  padLoop10F (exp + 1) exp text st

/-- server.js's synthetic-padding loop (lines 457-462): while the count is
short, synthesize and push unconditionally. -/
def padSF : Nat → Nat → Str → List Str → List Str
  | 0, _, _, ps => ps
  | fuel + 1, exp, text, ps =>
    if ps.length < exp then
      padSF fuel exp text (ps ++ [cpv4 (ps.headD text) (ps.length + 1)])
    else ps

/-- Fuel wrapper for server.js's padding loop: every iteration grows the
array by one, so `exp + 1` fuel is exact. -/
def padS (exp : Nat) (text : Str) (ps : List Str) : List Str :=
  padSF (exp + 1) exp text ps

/-- part_000's `parseMultiplePrompts(promptText, expectedCount)` (lines
476-619): the five extraction stages fold their candidates through the
shared filter, the padding loop runs, and the result is
`prompts.slice(0, expectedCount)`. -/
def p0parse (text : Str) (exp : Nat) : List Str :=
  let st : PState := ⟨[], []⟩
  let st := (stage1Cands text).foldl (pushP exp) st
  let st := (stage2Cands text).foldl (pushP exp) st
  let st := (stage3CandsP text).foldl (pushP exp) st
  let st := pushP exp st (mainContent text)
  let st := (stage5Cands text).foldl (pushP exp) st
  let st := padLoop10 exp text st
  st.prompts.take exp

/-- server.js's `parseMultiplePrompts(promptText, expectedCount)` (lines
379-466): no stage 2, no duplicate checks, unconditional padding, final
`slice(0, expectedCount)`. -/
def s0parse (text : Str) (exp : Nat) : List Str :=
  let ps : List Str := []
  let ps := (stage1Cands text).foldl (pushS exp) ps
  let ps := (stage3CandsS text).foldl (pushS exp) ps
  let ps := pushS exp ps (mainContent text)
  let ps := (stage5Cands text).foldl (pushS exp) ps
  let ps := padS exp text ps
  ps.take exp

/-- The raw text of synthetic template 2 rendered at index 2 — exactly what
`createPromptVariation(_, 2)` returns in both variants.  Feeding it back in
as raw text makes the stage-4 whole-text candidate collide with the padding
loop's synthetic candidate. -/
def vaText : Str := cpv10 [] 2

/-- `vaText` with four inter-word spaces replaced by blank lines: the
normalized form (whitespace collapsed) is unchanged, but every paragraph
piece is at most 100 characters, so stage 5 contributes nothing. -/
def nlBreakText : Str :=
  "VISUAL ARTWORK 2: Transform the person's clothing to the uploaded items\n\nwhile preserving their facial features and body structure. Craft an artistic visual experience\n\nwith creative lighting setups, dynamic pose expressions, and artistic background transformations.\n\nIncorporate advanced photography techniques including selective focus, artistic bokeh,\n\nand creative composition for a masterpiece result.".data

/-- 110 letters, the content of the duplicated header blocks. -/
def z110 : Str := List.replicate 110 'z'

/-- Two header-delimited blocks with byte-identical content (differing only
in surrounding whitespace). -/
def hdrDupText : Str :=
  "### Prompt 1: ".data ++ z110 ++ "\n### Prompt 2: ".data ++ z110

/-- What stage 4 (whole-text fallback) extracts from `hdrDupText`: the text
after the single stripped leading header, trimmed. -/
def hdrDupTail : Str := z110 ++ "\n### Prompt 2: ".data ++ z110

/-- A well-formed numbered segment: an enumerator and 101 copies of one
letter. -/
def numSeg (n : String) (c : Char) : Str := n.data ++ List.replicate 101 c

/-- Ten well-formed numbered segments, the text starting directly with the
first enumerator. -/
def numText : Str :=
  numSeg "1. " 'a' ++ " ".data ++ numSeg "2. " 'b' ++ " ".data ++
  numSeg "3. " 'c' ++ " ".data ++ numSeg "4. " 'd' ++ " ".data ++
  numSeg "5. " 'e' ++ " ".data ++ numSeg "6. " 'f' ++ " ".data ++
  numSeg "7. " 'g' ++ " ".data ++ numSeg "8. " 'h' ++ " ".data ++
  numSeg "9. " 'i' ++ " ".data ++ numSeg "10. " 'j'

/-- The same ten numbered segments behind a non-enumerated preamble. -/
def numPreText : Str := "Intro\n".data ++ numText

/-- A candidate of exactly 100 characters. -/
def b100 : Str := List.replicate 100 'b'

/-- A candidate of exactly 101 characters. -/
def b101 : Str := List.replicate 101 'b'

/-- A raw text carrying two stacked header markers: header stripping removes
only the first per application. -/
def twoHdrText : Str := "Prompt 1:Prompt 2:x".data

/-- The stage-4 normalization composite the spec calls "markup stripping":
one leading-header removal, emphasis collapse, trim (part_000 lines
559-563; server.js lines 424-429).  It equals `mainContent`; named
separately to discuss the normalizer itself. -/
def stripMarkup (cs : Str) : Str := jsTrim (cleanMd (stripHdrOnce cs))

/-- No adjacent star pair anywhere: on such text the double-marker replace
can match nothing. -/
def noDD : Str → Bool
  | [] => true
  | [_] => true
  | c :: d :: rest => !(c == '*' && d == '*') && noDD (d :: rest)

/-- Every single-marker match attempt fails: at each opening star, either no
star follows, or a line terminator stands before the next star. -/
def sCleanB : Str → Bool
  | [] => true
  | c :: rest =>
    if c = '*' then
      match splitAtStar rest with
      | some p => p.1.any isLineTerm && sCleanB rest
      | none => true
    else sCleanB rest

theorem sCleanB_cons_ne {c : Char} (h : ¬ c = '*') (R : Str) :
    sCleanB (c :: R) = sCleanB R := by
  simp [sCleanB, h]

theorem sCleanB_cons_star (R : Str) :
    sCleanB ('*' :: R) =
      (match splitAtStar R with
       | some q => q.1.any isLineTerm && sCleanB R
       | none => true) := by
  simp [sCleanB]

theorem noDD_cons {c : Char} (hc : ¬ c = '*') {L : Str} (hL : noDD L = true) :
    noDD (c :: L) = true := by
  cases L with
  | nil => rfl
  | cons y L2 => simp [noDD, hc]; simpa using hL

theorem noDD_cons_star {Y : Str} (hY : noDD Y = true)
    (hhead : ∀ z t, Y = z :: t → ¬ z = '*') : noDD ('*' :: Y) = true := by
  cases Y with
  | nil => rfl
  | cons z t =>
    have hz := hhead z t rfl
    simp [noDD, hz]
    simpa using hY

theorem noDD_of_no_star : ∀ {cs : Str}, '*' ∉ cs → noDD cs = true := by
  intro cs
  induction cs with
  | nil => intro _; rfl
  | cons c rest ih =>
    intro h
    have hc : ¬ c = '*' := fun hc => h (by simp [hc])
    have hrest : '*' ∉ rest := fun hr => h (List.mem_cons_of_mem _ hr)
    exact noDD_cons hc (ih hrest)

theorem noDD_append_no_star : ∀ {a X : Str}, '*' ∉ a → noDD X = true →
    noDD (a ++ X) = true := by
  intro a
  induction a with
  | nil => intro X _ hX; simpa using hX
  | cons c a2 ih =>
    intro X h hX
    have hc : ¬ c = '*' := fun hc => h (by simp [hc])
    have ha2 : '*' ∉ a2 := fun hr => h (List.mem_cons_of_mem _ hr)
    exact noDD_cons hc (ih ha2 hX)

theorem sCleanB_append_no_star : ∀ {a : Str} (X : Str), '*' ∉ a →
    sCleanB (a ++ X) = sCleanB X := by
  intro a
  induction a with
  | nil => intro X _; rfl
  | cons c a2 ih =>
    intro X h
    have hc : ¬ c = '*' := fun hc => h (by simp [hc])
    have ha2 : '*' ∉ a2 := fun hr => h (List.mem_cons_of_mem _ hr)
    rw [List.cons_append, sCleanB_cons_ne hc, ih X ha2]

theorem splitAtStar_append_no_star : ∀ {a : Str} (X : Str), '*' ∉ a →
    splitAtStar (a ++ X) = (splitAtStar X).map fun q => (a ++ q.1, q.2) := by
  intro a
  induction a with
  | nil => intro X _; rw [List.nil_append]; cases hx : splitAtStar X <;> simp
  | cons c a2 ih =>
    intro X h
    have hc : ¬ c = '*' := fun hc => h (by simp [hc])
    have ha2 : '*' ∉ a2 := fun hr => h (List.mem_cons_of_mem _ hr)
    rw [List.cons_append]
    show splitAtStar (c :: (a2 ++ X)) = _
    rw [show splitAtStar (c :: (a2 ++ X)) =
        (splitAtStar (a2 ++ X)).map fun p => (c :: p.1, p.2) from by
      simp [splitAtStar, hc]]
    rw [ih X ha2]
    cases splitAtStar X <;> simp

/-- The scanner copies a star-free prefix verbatim, spending one unit of
fuel per character. -/
theorem sstripF_copy : ∀ {a : Str} (fuel : Nat) (X : Str), '*' ∉ a →
    a.length ≤ fuel → sstripF fuel (a ++ X) = a ++ sstripF (fuel - a.length) X := by
  intro a
  induction a with
  | nil => intro fuel X _ _; simp
  | cons c a2 ih =>
    intro fuel X h hlen
    have hc : ¬ c = '*' := fun hc => h (by simp [hc])
    have ha2 : '*' ∉ a2 := fun hr => h (List.mem_cons_of_mem _ hr)
    match fuel, hlen with
    | f + 1, hlen =>
      have hlen2 : a2.length ≤ f := by simp at hlen; omega
      rw [List.cons_append]
      show sstripF (f + 1) (c :: (a2 ++ X)) = _
      rw [show sstripF (f + 1) (c :: (a2 ++ X)) = c :: sstripF f (a2 ++ X) from by
        simp [sstripF, hc]]
      rw [ih f X ha2 hlen2]
      have : f - a2.length = f + 1 - (a2.length + 1) := by omega
      rw [this]
      simp

theorem sstripF_of_sClean : ∀ (fuel : Nat) {cs : Str},
    sCleanB cs = true → sstripF fuel cs = cs := by
  intro fuel
  induction fuel with
  | zero => intro cs _; rfl
  | succ n ih =>
    intro cs h
    match cs with
    | [] => rfl
    | c :: rest =>
      by_cases hc : c = '*'
      · subst hc
        rw [sCleanB_cons_star] at h
        cases hs : splitAtStar rest with
        | none => simp [sstripF, hs]
        | some p =>
          rw [hs] at h
          simp at h
          obtain ⟨hterm, hclean⟩ := h
          rw [show sstripF (n + 1) ('*' :: rest) = '*' :: sstripF n rest from by
            simp [sstripF, hs, hterm]]
          rw [ih hclean]
      · rw [show sstripF (n + 1) (c :: rest) = c :: sstripF n rest from by
          simp [sstripF, hc]]
        rw [ih (by rwa [sCleanB_cons_ne hc rest] at h)]

theorem dstripF_of_noDD : ∀ (fuel : Nat) {cs : Str},
    noDD cs = true → dstripF fuel cs = cs := by
  intro fuel
  induction fuel with
  | zero => intro cs _; rfl
  | succ n ih =>
    intro cs h
    match cs with
    | [] => rfl
    | [c] => rfl
    | c :: d :: rest =>
      simp only [noDD, Bool.and_eq_true] at h
      obtain ⟨h1, htail⟩ := h
      have h2 : ¬ (c = '*' ∧ d = '*') := by
        rintro ⟨hc, hd⟩
        subst hc; subst hd
        simp at h1
      rw [show dstripF (n + 1) (c :: d :: rest) = c :: dstripF n (d :: rest) from by
        simp [dstripF, h2]]
      rw [ih htail]

theorem sCleanB_sstripF : ∀ (fuel : Nat) (cs : Str), cs.length < fuel →
    sCleanB (sstripF fuel cs) = true := by
  intro fuel
  induction fuel with
  | zero => intro cs h; omega
  | succ n ih =>
    intro cs h
    match cs with
    | [] => rfl
    | c :: rest =>
      by_cases hc : c = '*'
      · subst hc
        cases hs : splitAtStar rest with
        | none =>
          rw [show sstripF (n + 1) ('*' :: rest) = '*' :: rest from by
            simp [sstripF, hs]]
          rw [sCleanB_cons_star, hs]
        | some p =>
          have heq := splitAtStar_eq hs
          have hnostar := splitAtStar_no_star hs
          have hrest_len : rest.length < n := by simp at h; omega
          have hsplit : rest.length = p.1.length + 1 + p.2.length := by
            rw [heq]; simp [List.length_append]; omega
          by_cases hterm : p.1.any isLineTerm
          · rw [show sstripF (n + 1) ('*' :: rest) = '*' :: sstripF n rest from by
              simp [sstripF, hs, hterm]]
            have hY := ih rest hrest_len
            have hcopy : sstripF n rest =
                p.1 ++ sstripF (n - p.1.length) ('*' :: p.2) := by
              conv_lhs => rw [heq]
              exact sstripF_copy n ('*' :: p.2) hnostar (by omega)
            rw [sCleanB_cons_star, hcopy, splitAtStar_append_no_star _ hnostar]
            rw [hcopy] at hY
            cases hz : splitAtStar (sstripF (n - p.1.length) ('*' :: p.2)) with
            | none => rfl
            | some q =>
              simp [List.any_append, hterm, hY]
          · rw [show sstripF (n + 1) ('*' :: rest) = p.1 ++ sstripF n p.2 from by
              simp [sstripF, hs, hterm]]
            rw [sCleanB_append_no_star _ hnostar]
            exact ih p.2 (by omega)
      · rw [show sstripF (n + 1) (c :: rest) = c :: sstripF n rest from by
          simp [sstripF, hc]]
        rw [sCleanB_cons_ne hc]
        exact ih rest (by simp at h; omega)

theorem noDD_sstripF : ∀ (fuel : Nat) (cs : Str), cs.length < fuel →
    noDD (sstripF fuel cs) = true := by
  intro fuel
  induction fuel with
  | zero => intro cs h; omega
  | succ n ih =>
    intro cs h
    match cs with
    | [] => rfl
    | c :: rest =>
      by_cases hc : c = '*'
      · subst hc
        cases hs : splitAtStar rest with
        | none =>
          rw [show sstripF (n + 1) ('*' :: rest) = '*' :: rest from by
            simp [sstripF, hs]]
          have hrest : '*' ∉ rest := splitAtStar_none_no_star hs
          cases rest with
          | nil => rfl
          | cons y R =>
            have hy : ¬ y = '*' := fun hy => hrest (by simp [hy])
            simp [noDD, hy]
            simpa using noDD_of_no_star hrest
        | some p =>
          have heq := splitAtStar_eq hs
          have hnostar := splitAtStar_no_star hs
          have hrest_len : rest.length < n := by simp at h; omega
          have hsplit : rest.length = p.1.length + 1 + p.2.length := by
            rw [heq]; simp [List.length_append]; omega
          by_cases hterm : p.1.any isLineTerm
          · rw [show sstripF (n + 1) ('*' :: rest) = '*' :: sstripF n rest from by
              simp [sstripF, hs, hterm]]
            have hcopy : sstripF n rest =
                p.1 ++ sstripF (n - p.1.length) ('*' :: p.2) := by
              conv_lhs => rw [heq]
              exact sstripF_copy n ('*' :: p.2) hnostar (by omega)
            refine noDD_cons_star (ih rest hrest_len) ?_
            intro z t hzt
            rw [hcopy] at hzt
            cases hp : p.1 with
            | nil => rw [hp] at hterm; simp at hterm
            | cons x a2 =>
              have hx : ¬ x = '*' := fun hx => hnostar (by rw [hp]; simp [hx])
              rw [hp, List.cons_append] at hzt
              have hxz : x = z := (List.cons.injEq _ _ _ _).mp hzt |>.1
              exact hxz ▸ hx
          · rw [show sstripF (n + 1) ('*' :: rest) = p.1 ++ sstripF n p.2 from by
              simp [sstripF, hs, hterm]]
            exact noDD_append_no_star hnostar (ih p.2 (by omega))
      · rw [show sstripF (n + 1) (c :: rest) = c :: sstripF n rest from by
          simp [sstripF, hc]]
        exact noDD_cons hc (ih rest (by simp at h; omega))

/-- The emphasis-collapse pass (double-marker replace, then single-marker
replace) is idempotent: its output contains no adjacent star pair and no
matchable single-star span, so a second pass of either replace changes
nothing. -/
theorem emphasis_strip_idem (cs : Str) :
    sstrip (dstrip (sstrip (dstrip cs))) = sstrip (dstrip cs) := by
  have h1 : noDD (sstrip (dstrip cs)) = true :=
    noDD_sstripF _ _ (by omega)
  have h2 : sCleanB (sstrip (dstrip cs)) = true :=
    sCleanB_sstripF _ _ (by omega)
  rw [show dstrip (sstrip (dstrip cs)) = sstrip (dstrip cs) from
    dstripF_of_noDD _ h1]
  exact sstripF_of_sClean _ h2

theorem padSF_length_ge : ∀ (fuel exp : Nat) (text : Str) (ps : List Str),
    exp ≤ ps.length + fuel → exp ≤ (padSF fuel exp text ps).length := by
  intro fuel
  induction fuel with
  | zero =>
    intro exp text ps h
    simpa [padSF] using (by omega : exp ≤ ps.length)
  | succ n ih =>
    intro exp text ps h
    by_cases hlt : ps.length < exp
    · have : padSF (n + 1) exp text ps =
          padSF n exp text (ps ++ [cpv4 (ps.headD text) (ps.length + 1)]) := by
        simp [padSF, hlt]
      rw [this]
      exact ih exp text _ (by simp; omega)
    · have : padSF (n + 1) exp text ps = ps := by simp [padSF, hlt]
      rw [this]; omega

theorem padS_length_ge (exp : Nat) (text : Str) (ps : List Str) :
    exp ≤ (padS exp text ps).length :=
  padSF_length_ge (exp + 1) exp text ps (by omega)

theorem padLoop10F_length_ge : ∀ (fuel exp : Nat) (text : Str) (st : PState),
    st.prompts.length ≤ (padLoop10F fuel exp text st).prompts.length := by
  intro fuel
  induction fuel with
  | zero => intro exp text st; simp [padLoop10F]
  | succ n ih =>
    intro exp text st
    show st.prompts.length ≤ (padLoop10F (n + 1) exp text st).prompts.length
    rw [padLoop10F]
    by_cases hlt : st.prompts.length < exp
    · rw [if_pos hlt]
      by_cases hdup : normText (cpv10 (st.prompts.headD text)
          (st.prompts.length + 1)) ∈ st.seen
      · rw [if_pos hdup]
      · rw [if_neg hdup]
        calc st.prompts.length
            ≤ (st.prompts ++ [cpv10 (st.prompts.headD text)
                (st.prompts.length + 1)]).length := by simp
          _ ≤ _ := ih exp text
              ⟨st.prompts ++ [cpv10 (st.prompts.headD text)
                 (st.prompts.length + 1)],
               st.seen ++ [normText (cpv10 (st.prompts.headD text)
                 (st.prompts.length + 1))]⟩
    · rw [if_neg hlt]

/-- The invariant of part_000's accumulation: every collected prompt's
normalized form is recorded in the seen-set, and the collected prompts are
pairwise distinct under normalization. -/
def SegInv (st : PState) : Prop :=
  (∀ p ∈ st.prompts, normText p ∈ st.seen) ∧
  st.prompts.Pairwise fun a b => normText a ≠ normText b

theorem segInv_push {st : PState} (h : SegInv st) (c : Str)
    (hfresh : normText c ∉ st.seen) :
    SegInv ⟨st.prompts ++ [c], st.seen ++ [normText c]⟩ := by
  obtain ⟨hmem, hpair⟩ := h
  constructor
  · intro p hp
    rcases List.mem_append.mp hp with hp | hp
    · exact List.mem_append.mpr (Or.inl (hmem p hp))
    · simp at hp
      subst hp
      simp
  · rw [List.pairwise_append]
    refine ⟨hpair, List.pairwise_singleton _ _, ?_⟩
    intro a ha b hb
    simp at hb
    subst hb
    intro hab
    exact hfresh (hab ▸ hmem a ha)

theorem segInv_pushP {st : PState} (h : SegInv st) (exp : Nat) (c : Str) :
    SegInv (pushP exp st c) := by
  unfold pushP
  split
  · rename_i hcond
    exact segInv_push h c hcond.2.2
  · exact h

theorem segInv_foldl_pushP {st : PState} (h : SegInv st) (exp : Nat) :
    ∀ (l : List Str), SegInv (l.foldl (pushP exp) st) := by
  intro l
  induction l generalizing st with
  | nil => exact h
  | cons c rest ih => exact ih (segInv_pushP h exp c)

theorem segInv_padLoop10F : ∀ (fuel exp : Nat) (text : Str) {st : PState},
    SegInv st → SegInv (padLoop10F fuel exp text st) := by
  intro fuel
  induction fuel with
  | zero => intro exp text st h; simpa [padLoop10F] using h
  | succ n ih =>
    intro exp text st h
    show SegInv (padLoop10F (n + 1) exp text st)
    rw [padLoop10F]
    by_cases hlt : st.prompts.length < exp
    · rw [if_pos hlt]
      by_cases hdup : normText (cpv10 (st.prompts.headD text)
          (st.prompts.length + 1)) ∈ st.seen
      · rw [if_pos hdup]; exact h
      · rw [if_neg hdup]
        exact ih exp text (segInv_push h _ hdup)
    · rw [if_neg hlt]; exact h

/-- part_000's result is duplicate-free under normalization, for every
input and every requested count. -/
theorem p0parse_nodup (text : Str) (exp : Nat) :
    (p0parse text exp).Pairwise fun a b => normText a ≠ normText b := by
  have hbase : SegInv ⟨[], []⟩ := ⟨by simp, List.Pairwise.nil⟩
  have h1 := segInv_foldl_pushP hbase exp (stage1Cands text)
  have h2 := segInv_foldl_pushP h1 exp (stage2Cands text)
  have h3 := segInv_foldl_pushP h2 exp (stage3CandsP text)
  have h4 := segInv_pushP h3 exp (mainContent text)
  have h5 := segInv_foldl_pushP h4 exp (stage5Cands text)
  have h6 := segInv_padLoop10F (exp + 1) exp text h5
  exact List.Pairwise.sublist (List.take_sublist _ _) h6.2

theorem p0parse_length_le (text : Str) (exp : Nat) :
    (p0parse text exp).length ≤ exp := by
  unfold p0parse
  simp [List.length_take]

theorem s0parse_length (text : Str) (exp : Nat) :
    (s0parse text exp).length = exp := by
  unfold s0parse
  simp only [List.length_take]
  exact Nat.min_eq_left (padS_length_ge exp text _)

/-- One observation of part_000's padding loop from a short state: either
the synthesized candidate is a duplicate and the loop stops with the state
unchanged, or the prompt list strictly grows. -/
theorem padLoop10_step (exp : Nat) (text : Str) (st : PState)
    (h : st.prompts.length < exp) :
    padLoop10 exp text st = st ∨
    st.prompts.length < (padLoop10 exp text st).prompts.length := by
  unfold padLoop10
  rw [padLoop10F, if_pos h]
  by_cases hdup : normText (cpv10 (st.prompts.headD text)
      (st.prompts.length + 1)) ∈ st.seen
  · left
    rw [if_pos hdup]
  · right
    rw [if_neg hdup]
    have hge := padLoop10F_length_ge exp exp text
      ⟨st.prompts ++ [cpv10 (st.prompts.headD text) (st.prompts.length + 1)],
       st.seen ++ [normText (cpv10 (st.prompts.headD text)
         (st.prompts.length + 1))]⟩
    simp only [List.length_append, List.length_cons, List.length_nil] at hge
    omega

/-- When the loop is short of the target and the synthesized candidate's
normalized form was already seen, part_000's padding loop stops at once. -/
theorem padLoop10_stops_on_dup (exp : Nat) (text : Str) (st : PState)
    (h : st.prompts.length < exp)
    (hdup : normText (cpv10 (st.prompts.headD text) (st.prompts.length + 1))
      ∈ st.seen) :
    padLoop10 exp text st = st := by
  unfold padLoop10
  rw [padLoop10F, if_pos h, if_pos hdup]

theorem pushP_rejects_100 (exp : Nat) (st : PState) (c : Str)
    (h : c.length = 100) : pushP exp st c = st := by
  unfold pushP
  rw [if_neg]
  rintro ⟨h1, -, -⟩
  omega

theorem pushP_accepts_101 (exp : Nat) (st : PState) (c : Str)
    (h : c.length = 101) (hroom : st.prompts.length < exp)
    (hfresh : normText c ∉ st.seen) :
    (pushP exp st c).prompts = st.prompts ++ [c] := by
  unfold pushP
  rw [if_pos ⟨by omega, hroom, hfresh⟩]

theorem pushS_rejects_100 (exp : Nat) (ps : List Str) (c : Str)
    (h : c.length = 100) : pushS exp ps c = ps := by
  unfold pushS
  rw [if_neg]
  rintro ⟨h1, -⟩
  omega

theorem pushS_accepts_101 (exp : Nat) (ps : List Str) (c : Str)
    (h : c.length = 101) (hroom : ps.length < exp) :
    pushS exp ps c = ps ++ [c] := by
  unfold pushS
  rw [if_pos ⟨by omega, hroom⟩]

/-- C1: the claim states that for every raw text and every desired count in
[1,5] the segmenter returns exactly `desiredCount` segments, never fewer.
That fails for the part_000 variant (see `c1_counterexample`); what holds
is: the server.js variant always returns exactly `desiredCount` segments
(its padding loop fills unconditionally), and the part_000 variant returns
at most `desiredCount` segments but can return fewer. -/
theorem c1_segment_count :
    ∀ (rawText : Str) (desiredCount : Nat),
      (s0parse rawText desiredCount).length = desiredCount ∧
      (p0parse rawText desiredCount).length ≤ desiredCount :=
  fun text n => ⟨s0parse_length text n, p0parse_length_le text n⟩

/-- C1 counterexample: feeding part_000's own synthetic template 2 back in
as raw text with desiredCount 2 (which is inside [1,5]) makes the padding
loop's first candidate a normalized duplicate of the collected whole-text
segment, so the loop breaks and only one segment is returned. -/
theorem c1_counterexample : (p0parse vaText 2).length ≠ 2 := by decide

/-- C2: the no-duplicates guarantee holds for the part_000 variant (every
result is pairwise distinct under normalization), but not for the server.js
variant (see `c2_counterexample`); and in the two-identical-header-blocks
scenario with desiredCount 2 the duplicate block is indeed discarded, yet
the second slot is filled by the stage-4 whole-text fallback segment, not
by a synthesized one. -/
theorem c2_no_duplicates :
    (∀ (rawText : Str) (desiredCount : Nat),
      (p0parse rawText desiredCount).Pairwise
        fun a b => normText a ≠ normText b) ∧
    p0parse hdrDupText 2 = [z110, hdrDupTail] := by
  exact ⟨p0parse_nodup, by decide⟩

/-- C2 counterexample: the server.js variant has no duplicate filter at
all; on the raw text `vaText` with desiredCount 2 it returns the same
segment twice, so the universal no-duplicates statement is false. -/
theorem c2_counterexample :
    ¬ ∀ (rawText : Str) (desiredCount : Nat),
        (s0parse rawText desiredCount).Pairwise
          fun a b => normText a ≠ normText b := by
  intro h
  have h2 := h vaText 2
  rw [show s0parse vaText 2 = [vaText, vaText] from by decide] at h2
  exact (List.pairwise_cons.mp h2).1 vaText (List.mem_singleton.mpr rfl) rfl

/-- C3: in the part_000 variant the claim holds: a synthesized candidate
whose normalized form was already collected stops the padding loop at once
(first conjunct), the function still returns a list (it is total) of at
most the requested length (second conjunct), and the shortfall actually
occurs (third conjunct).  The server.js variant, also cited by the claim,
applies no duplicate filter during padding — see `c3_counterexample`. -/
theorem c3_padding_duplicate_stop :
    (∀ (exp : Nat) (text : Str) (st : PState),
      st.prompts.length < exp →
      normText (cpv10 (st.prompts.headD text) (st.prompts.length + 1))
        ∈ st.seen →
      padLoop10 exp text st = st) ∧
    (∀ (text : Str) (n : Nat), (p0parse text n).length ≤ n) ∧
    (p0parse vaText 2).length < 2 := by
  refine ⟨padLoop10_stops_on_dup, p0parse_length_le, by decide⟩

/-- C3 witness: the stopping clause applied at a concrete short state whose
seen-set already holds the normalized form of the next synthetic
candidate. -/
theorem c3_padding_duplicate_stop_witness :
    padLoop10 2 [] ⟨[vaText], [normText vaText]⟩ =
      ⟨[vaText], [normText vaText]⟩ :=
  c3_padding_duplicate_stop.1 2 [] ⟨[vaText], [normText vaText]⟩
    (by decide) (by decide)

/-- C3 counterexample: in the server.js variant a synthesized padding
candidate that repeats an already-collected segment (same normalized form)
is appended anyway, and the function returns the full requested count
rather than stopping early. -/
theorem c3_counterexample :
    s0parse nlBreakText 2 = [nlBreakText, vaText] ∧
    normText vaText = normText nlBreakText := by
  constructor <;> decide

/-- C4: on ten well-formed numbered segments the result does have length 2,
but the enumerator-split stage skips the piece before the first match of
`(?=\d+\.\s)`; a zero-width separator match at position 0 does not cut, so
when the text begins directly with "1. " that skipped piece is the whole
first segment and the result is segments 2 and 3.  Only with a non-empty
non-enumerated preamble is the result the first two segments in document
order. -/
theorem c4_truncation :
    p0parse numText 2 = [numSeg "2. " 'b', numSeg "3. " 'c'] ∧
    p0parse numPreText 2 = [numSeg "1. " 'a', numSeg "2. " 'b'] := by
  constructor <;> decide

/-- C4 counterexample: for the preamble-free ten-segment text the result is
not the first two numbered segments in document order. -/
theorem c4_counterexample :
    p0parse numText 2 ≠ [numSeg "1. " 'a', numSeg "2. " 'b'] := by decide

/-- C5: on the empty raw text with desiredCount 3 both variants return
exactly three segments — the synthetic templates at indices 1, 2 and 3 —
and the three entries are pairwise distinct. -/
theorem c5_padding_guarantee :
    p0parse [] 3 = [cpv10 [] 1, cpv10 [] 2, cpv10 [] 3] ∧
    cpv10 [] 1 ≠ cpv10 [] 2 ∧ cpv10 [] 1 ≠ cpv10 [] 3 ∧
    cpv10 [] 2 ≠ cpv10 [] 3 ∧
    s0parse [] 3 = [cpv4 [] 1, cpv4 [] 2, cpv4 [] 3] ∧
    cpv4 [] 1 ≠ cpv4 [] 2 ∧ cpv4 [] 1 ≠ cpv4 [] 3 ∧
    cpv4 [] 2 ≠ cpv4 [] 3 := by
  refine ⟨by decide, by decide, by decide, by decide,
    by decide, by decide, by decide, by decide⟩

/-- C6: `createPromptVariation` ignores its `basePrompt` argument entirely,
in both variants and for every integer index (including negative indices,
where the JavaScript remainder makes the array lookup yield `undefined`):
the output is a pure function of the index alone. -/
theorem c6_variation_ignores_base :
    ∀ (b1 b2 : Str) (i : Int),
      cpvZ10 b1 i = cpvZ10 b2 i ∧ cpvZ4 b1 i = cpvZ4 b2 i :=
  fun _ _ _ => ⟨rfl, rfl⟩

/-- C7: every extraction stage filters candidates through `pushP`
(part_000) or `pushS` (server.js), whose guard is the strict comparison
`prompt.length > 100`: a 100-character candidate is rejected and the state
left unchanged, a 101-character candidate (with room, and for part_000
unseen) is appended; at the whole-parse level a 100-character raw text
falls through to synthesis while a 101-character raw text is returned
as the sole segment. -/
theorem c7_threshold_boundary :
    (∀ (exp : Nat) (st : PState) (c : Str), c.length = 100 →
      pushP exp st c = st) ∧
    (∀ (exp : Nat) (st : PState) (c : Str), c.length = 101 →
      st.prompts.length < exp → normText c ∉ st.seen →
      (pushP exp st c).prompts = st.prompts ++ [c]) ∧
    (∀ (exp : Nat) (ps : List Str) (c : Str), c.length = 100 →
      pushS exp ps c = ps) ∧
    (∀ (exp : Nat) (ps : List Str) (c : Str), c.length = 101 →
      ps.length < exp → pushS exp ps c = ps ++ [c]) ∧
    p0parse b100 1 = [cpv10 [] 1] ∧ p0parse b101 1 = [b101] ∧
    s0parse b100 1 = [cpv4 [] 1] ∧ s0parse b101 1 = [b101] := by
  refine ⟨pushP_rejects_100, pushP_accepts_101, pushS_rejects_100,
    pushS_accepts_101, by decide, by decide, by decide, by decide⟩

/-- C7 witness: the boundary guards applied at concrete 100- and
101-character candidates from the empty state. -/
theorem c7_threshold_boundary_witness :
    pushP 1 ⟨[], []⟩ b100 = ⟨[], []⟩ ∧
    (pushP 1 ⟨[], []⟩ b101).prompts = [b101] ∧
    pushS 1 [] b100 = [] ∧ pushS 1 [] b101 = [b101] := by
  refine ⟨c7_threshold_boundary.1 1 ⟨[], []⟩ b100 (by decide),
    ?_, c7_threshold_boundary.2.2.1 1 [] b100 (by decide),
    c7_threshold_boundary.2.2.2.1 1 [] b101 (by decide) (by decide)⟩
  have h := c7_threshold_boundary.2.1 1 ⟨[], []⟩ b101 (by decide)
    (by decide) (by decide)
  simpa using h

/-- C8: the markup-stripping normalization as implemented (one leading
header removal, then emphasis collapse, then trim — `stripMarkup`) is not
idempotent, because each application removes only one leading header (see
`c8_counterexample`).  What holds is idempotence of the emphasis-collapse
part: a second pass of the double-marker and single-marker replaces over
already-collapsed text changes nothing. -/
theorem c8_strip_idempotent :
    ∀ cs : Str, sstrip (dstrip (sstrip (dstrip cs))) = sstrip (dstrip cs) :=
  emphasis_strip_idem

/-- C8 counterexample: a text with two stacked leading header markers
strips to different results on the first and second application. -/
theorem c8_counterexample :
    stripMarkup (stripMarkup twoHdrText) ≠ stripMarkup twoHdrText := by
  decide

/-- C9: both segmenters are total functions of their inputs (the embedding
terminates by construction, mirroring the source loops whose deficit
strictly decreases); for every text and every positive expected count the
part_000 result has at most the requested length, the server.js result has
exactly the requested length, and each observation of part_000's padding
loop from a short state either stops it (duplicate candidate) or strictly
grows the prompt list. -/
theorem c9_termination_bound :
    ∀ (promptText : Str) (expectedCount : Nat), 1 ≤ expectedCount →
      (p0parse promptText expectedCount).length ≤ expectedCount ∧
      (s0parse promptText expectedCount).length = expectedCount ∧
      ∀ st : PState, st.prompts.length < expectedCount →
        padLoop10 expectedCount promptText st = st ∨
        st.prompts.length < (padLoop10 expectedCount promptText st).prompts.length :=
  fun text n _ =>
    ⟨p0parse_length_le text n, s0parse_length text n,
     fun st h => padLoop10_step n text st h⟩

/-- C9 witness: the bound instantiated at the empty text and count 1. -/
theorem c9_termination_bound_witness :
    (p0parse [] 1).length ≤ 1 ∧
    (s0parse [] 1).length = 1 ∧
    ∀ st : PState, st.prompts.length < 1 →
      padLoop10 1 [] st = st ∨
      st.prompts.length < (padLoop10 1 [] st).prompts.length :=
  c9_termination_bound [] 1 (by omega)

/-- C10: the two shipped implementations are not extensionally equal; on
the raw text `vaText` with expected count 2, part_000 deduplicates and
breaks its padding loop, returning the segment once, while server.js
returns it twice. -/
theorem c10_variants_differ :
    p0parse vaText 2 = [vaText] ∧ s0parse vaText 2 = [vaText, vaText] := by
  constructor <;> decide

/-- C10 counterexample: a concrete input on which the two implementations
disagree. -/
theorem c10_counterexample : p0parse vaText 2 ≠ s0parse vaText 2 := by decide
